import Mathlib

/-!
# Verification of the MedicalAnalysisSystem forecasting engine

Shallow embedding of the forecasting pipeline of `main2+gemini.py`
(the forecast methods of `main.py` are placeholder dialogs, so the
`main2+gemini.py` implementations are the authoritative code).

Conventions of the embedding:
* A calendar month is represented by its period index `P = year * 12 + month`
  with `month ∈ 1..12`, exactly the encoding the source uses for the
  column `Период` (`Год * 12 + Месяц`).  Consecutive calendar months have
  consecutive period indices.
* Counts and model outputs are rationals (`ℚ`), the idealisation of the
  floating-point arithmetic of the source.
* External numeric libraries (statsmodels, scikit-learn, xgboost) are
  modelled by abstract function parameters: the fitted model of an
  ensemble backend is an opaque prediction function, an ARIMA fit either
  raises (`none`) or yields its AIC, and `sin`/`cos` of the month are
  opaque rational-valued functions.  Everything the repository itself
  computes is embedded concretely and executably.
-/

namespace MedSys

/-- An input row of the event table.  `date` is `none` when
`pd.to_datetime(..., errors=ꞌcoerceꞌ)` cannot parse the value (such rows
are dropped by `dropna(subset=[ꞌДатаꞌ])`); otherwise it is the period
index of the record month.  `region` is the value of the `Регион` column
and `count` the value of `Количество`. -/
structure Row where
  date : Option ℕ
  region : String
  count : ℚ
deriving Repr, DecidableEq

/-- The value `getattr(self, ꞌforecast_region_varꞌ, None)`: either the
attribute is absent (`noneVar`) or it is the `tk.StringVar` created at
line 894 of the source, holding the currently selected string. -/
inductive RegionSel where
  | noneVar : RegionSel
  | svar (held : String) : RegionSel
deriving Repr, DecidableEq

/-- Python equality between a `tkinter.Variable` and another object:
`tkinter.Variable.__eq__` returns
`self.__class__.__name__ == other.__class__.__name__ and self._name == other._name`,
so comparing a `StringVar` with a `str` compares the class names
`"StringVar"` and `"str"` — never equal, regardless of the held value. -/
def pyVarEqObj (varClassName otherClassName : String) : Bool :=
  varClassName == otherClassName

/-- The region filter block that opens `forecast_sarima` (lines
2446–2448), `forecast_xgboost` (2631–2633) and the executing
`forecast_linear_regression` (3611–3613):

```
region_filter = getattr(self, ꞌforecast_region_varꞌ, None)
if region_filter and region_filter != ꞌВсеꞌ and ꞌРегионꞌ in data.columns:
    data = data[data[ꞌРегионꞌ] == region_filter]
```

`region_filter` is the `StringVar` object itself (`.get()` is never
called).  A `StringVar` is truthy; `region_filter != ꞌВсеꞌ` compares the
variable with a `str` via `pyVarEqObj`, and the pandas mask
`data[ꞌРегионꞌ] == region_filter` compares each cell (a `str`) with the
variable the same way. -/
def applyRegionFilter (rv : RegionSel) (hasRegionCol : Bool) (rows : List Row) :
    List Row :=
  match rv with
  | RegionSel.noneVar => rows
  | RegionSel.svar _ =>
      if hasRegionCol && !(pyVarEqObj "StringVar" "str") then
        rows.filter (fun _ => pyVarEqObj "StringVar" "str")
      else rows

/-- The exact-match row predicate described by the specification
(modelled from the spec: "Filtering by region/disease is an exact-match
predicate over the raw rows", with `ꞌВсеꞌ` selecting every row).  This is
what the filter was evidently intended to do — line 1224 of the source
reads the very same variable correctly via `.get()`. -/
def specRegionFilter (selected : String) (rows : List Row) : List Row :=
  if selected == "Все" then rows
  else rows.filter (fun r => r.region == selected)

/-- Date coercion `pd.to_datetime(..., errors=ꞌcoerceꞌ)` followed by
`dropna(subset=[ꞌДатаꞌ])`: keep the rows with a parseable date, as
(period, count) events. -/
def parsedEvents (rows : List Row) : List (ℕ × ℚ) :=
  rows.filterMap (fun r => r.date.map (fun p => (p, r.count)))

/-- Total count of the events falling in period `p` (the sum a monthly
group receives). -/
def sumAt (evs : List (ℕ × ℚ)) (p : ℕ) : ℚ :=
  ((evs.filter (fun e => e.1 = p)).map (fun e => e.2)).sum

/-- Smallest period index among the events (0 for an empty list). -/
def minPeriod (evs : List (ℕ × ℚ)) : ℕ :=
  (evs.map (fun e => e.1)).foldr min (evs.headD (0, 0)).1

/-- Largest period index among the events (0 for an empty list). -/
def maxPeriod (evs : List (ℕ × ℚ)) : ℕ :=
  (evs.map (fun e => e.1)).foldr max 0

/-- Monthly aggregation `data.resample(ꞌMSꞌ, on=ꞌДатаꞌ)[ꞌКоличествоꞌ].sum()`: one entry per
calendar month from the first to the last event month (months with no
event coalesced to sum 0), in chronological order. -/
def resampleMS (evs : List (ℕ × ℚ)) : List (ℕ × ℚ) :=
  match evs with
  | [] => []
  | _ :: _ =>
      (List.range (maxPeriod evs + 1 - minPeriod evs)).map
        (fun i => (minPeriod evs + i, sumAt evs (minPeriod evs + i)))

/-- Grouped aggregation `data.groupby([ꞌГодꞌ, ꞌМесяцꞌ])[ꞌКоличествоꞌ].sum()` as used by
`forecast_ml`: one entry per month that actually occurs among the
events (absent months are skipped, not zero-filled), keys in ascending
order, value the group sum. -/
def groupByMonths (evs : List (ℕ × ℚ)) : List (ℕ × ℚ) :=
  match evs with
  | [] => []
  | _ :: _ =>
      (List.range (maxPeriod evs + 1 - minPeriod evs)).filterMap
        (fun i =>
          if evs.any (fun e => e.1 = minPeriod evs + i) then
            some (minPeriod evs + i, sumAt evs (minPeriod evs + i))
          else none)

/-- Positive filtering `monthly_data[monthly_data > 0]`: keep the strictly positive months. -/
def posFilter (s : List (ℕ × ℚ)) : List (ℕ × ℚ) :=
  s.filter (fun e => 0 < e.2)

/-- Number of strictly positive months, `(monthly_data > 0).sum()`. -/
def posCount (s : List (ℕ × ℚ)) : ℕ :=
  (posFilter s).length

/-- Calendar month (1..12) of a period index, as the source decodes it
(`new_month = new_period % 12; if new_month == 0: new_month = 12`). -/
def calMonthOf (p : ℕ) : ℕ :=
  if p % 12 = 0 then 12 else p % 12

/-- Year of a period index, as the source decodes it
(`new_year = new_period // 12`, minus one when the month wrapped to 12). -/
def yearOf (p : ℕ) : ℕ :=
  if p % 12 = 0 then p / 12 - 1 else p / 12

/-- A tiny concrete event table: two regions, four parsed months. -/
def demoRows : List Row :=
  [⟨some (2023 * 12 + 1), "Алматы", 5⟩,
   ⟨some (2023 * 12 + 2), "Астана", 3⟩,
   ⟨some (2023 * 12 + 3), "Алматы", 7⟩,
   ⟨some (2023 * 12 + 4), "Астана", 2⟩]

/-! ## The SARIMA backend (`forecast_sarima`, lines 2441–2617) -/

/-- The statsmodels facilities `forecast_sarima` calls.  `statsmodels`
is the availability flag `STATSMODELS_AVAILABLE`; `aic o` is the result
of `ARIMA(monthly_data, order=o).fit()` — `none` when the fit raises
(candidate skipped by the bare `except`), `some a` when it converges
with Akaike criterion `a`; `fcStep o i` is entry `i` of
`fitted.forecast(steps=...)` for the model of order `o`. -/
structure ArimaLib where
  statsmodels : Bool
  aic : ℕ × ℕ × ℕ → Option ℚ
  fcStep : ℕ × ℕ × ℕ → ℕ → ℚ

/-- The order grid of the search (lines 2522–2524): `p in range(0, 3)`,
`d in range(0, 2)`, `q in range(0, 3)`, enumerated lexicographically. -/
def arimaCandidates : List (ℕ × ℕ × ℕ) :=
  (List.range 3).flatMap fun p =>
    (List.range 2).flatMap fun d =>
      (List.range 3).map fun q => (p, d, q)

/-- One iteration of the search loop (lines 2525–2533): a candidate
whose fit raises is skipped; a fitted candidate replaces the incumbent
only when its AIC is strictly smaller (`fitted_model.aic < best_aic`). -/
def searchStep (aic : ℕ × ℕ × ℕ → Option ℚ)
    (acc : Option ((ℕ × ℕ × ℕ) × ℚ)) (c : ℕ × ℕ × ℕ) :
    Option ((ℕ × ℕ × ℕ) × ℚ) :=
  match aic c with
  | none => acc
  | some a =>
      match acc with
      | none => some (c, a)
      | some (b, ab) => if a < ab then some (c, a) else some (b, ab)

/-- The whole order search: fold the loop body over the grid, starting
from `best_aic = inf`, `best_model = None`. -/
def searchBest (aic : ℕ × ℕ × ℕ → Option ℚ) : Option ((ℕ × ℕ × ℕ) × ℚ) :=
  arimaCandidates.foldl (searchStep aic) none

/-- Arithmetic mean of a list, `np.mean` (0 on the empty list, a case
the call sites guard away). -/
def seriesMean (v : List ℚ) : ℚ := v.sum / v.length

/-- Slope of the least-squares line `np.polyfit(X, values, 1)[0]` over
abscissas `0..n-1`. -/
def lin1Slope (v : List ℚ) : ℚ :=
  let n : ℚ := v.length
  let sx : ℚ := ∑ i in Finset.range v.length, (i : ℚ)
  let sxx : ℚ := ∑ i in Finset.range v.length, (i : ℚ) ^ 2
  let sy : ℚ := v.sum
  let sxy : ℚ := ∑ i in Finset.range v.length, (i : ℚ) * v.getD i 0
  (n * sxy - sx * sy) / (n * sxx - sx ^ 2)

/-- Intercept of the least-squares line `np.polyfit(X, values, 1)[1]`. -/
def lin1Intercept (v : List ℚ) : ℚ :=
  (v.sum - lin1Slope v * ∑ i in Finset.range v.length, (i : ℚ)) / v.length

/-- Entry `i` of the seasonal component (lines 2486–2490): the mean of
the values at positions `i, i+12, i+24, …` of the fitted series minus
the overall mean, 0 when no such position exists. -/
def seasonalComp (v : List ℚ) (i : ℕ) : ℚ :=
  let idxs := (List.range v.length).filter (fun j => j % 12 = i)
  if idxs.isEmpty then 0
  else seriesMean (idxs.map (fun j => v.getD j 0)) - seriesMean v

/-- Period index of the last entry of a monthly series
(`monthly_data.index[-1]`; 0 on the empty series, guarded at call
sites). -/
def lastPeriodOf (s : List (ℕ × ℚ)) : ℕ := (s.getLast?.getD (0, 0)).1

/-- Forecast dates produced by
`pd.date_range(start=last_date + DateOffset(months=1), periods=H)`:
the `H` consecutive months after the last historical one. -/
def fcDates (lastP H : ℕ) : List ℕ := (List.range H).map (fun i => lastP + 1 + i)

/-- Forecast values of the simplified SARIMA path (lines 2477–2511):
for step `i`, trend `slope * (len + i) + intercept` plus the seasonal
entry at index `(last_date.month + i) % 12`, clamped by `max(0, ·)`. -/
def sarimaSimpleVals (s : List (ℕ × ℚ)) (H : ℕ) : List ℚ :=
  let v := s.map (fun e => e.2)
  let slope := lin1Slope v
  let icept := lin1Intercept v
  (List.range H).map fun i =>
    max 0 (slope * ((v.length + i : ℕ) : ℚ) + icept +
      seasonalComp v ((calMonthOf (lastPeriodOf s) + i) % 12))

/-- Outcome of `forecast_sarima`.  `insufficient` is the early warning
return (fewer than 24 positive months); `recursionDepth` is the
`RecursionError` Python raises when the self-call at line 2552 never
terminates; the two `ok` forms carry the forecast dates and values of
the statsmodels path (with the chosen order) and of the simplified
path. -/
inductive SarimaOut where
  | insufficient : SarimaOut
  | recursionDepth : SarimaOut
  | okArima (order : ℕ × ℕ × ℕ) (dates : List ℕ) (values : List ℚ) : SarimaOut
  | okSimple (dates : List ℕ) (values : List ℚ) : SarimaOut
deriving Repr, DecidableEq

/-- The body of `forecast_sarima` from the monthly aggregation on, with
an explicit recursion depth for the self-call `return
self.forecast_sarima()` of line 2552 (reached when no order candidate
fits).  Note that the self-call re-enters the function with
`STATSMODELS_AVAILABLE` unchanged — the comment at line 2552 claims the
recursion happens "with STATSMODELS_AVAILABLE = False", but the flag is
never written, so the re-entered call repeats the identical search.
The stationarity probe of lines 2460–2474 is omitted: its result
(`diff_order`) is never used by the fit or the forecast. -/
def forecastSarima (lib : ArimaLib) (series : List (ℕ × ℚ)) (H : ℕ) :
    ℕ → SarimaOut
  | 0 => SarimaOut.recursionDepth
  | fuel + 1 =>
      if posCount series < 24 then SarimaOut.insufficient
      else
        if lib.statsmodels then
          match searchBest lib.aic with
          | none => forecastSarima lib series H fuel
          | some (ord, _) =>
              SarimaOut.okArima ord (fcDates (lastPeriodOf (posFilter series)) H)
                ((List.range H).map fun i => max (lib.fcStep ord i) 0)
        else
          SarimaOut.okSimple (fcDates (lastPeriodOf (posFilter series)) H)
            (sarimaSimpleVals (posFilter series) H)

/-- A concrete monthly series of 24 strictly positive months starting
January 2020. -/
def series24 : List (ℕ × ℚ) :=
  (List.range 24).map (fun i => (2020 * 12 + 1 + i, ((i % 7 : ℕ) : ℚ) + 1))

/-!
## The executing Linear Regression backend
(`forecast_linear_regression`, lines 3602–3688)

The class body defines `forecast_linear_regression` twice (lines 2898
and 3602); Python executes a class body top to bottom, so the second
definition replaces the first and the method that runs is the one at
line 3602.  It regresses on `PolynomialFeatures(degree=2)` of the bare
trend index — the columns `1, x, x²` — with no seasonal columns, and
scores the model on its own training data (`model.score(X_poly, y)`,
line 3677) with no train/test split.

`sklearn.LinearRegression` computes the least-squares fit; for the
design `1, x, x²` over `x = 0..n-1` the normal equations have an
invertible matrix whenever `n ≥ 3` (proved below), so the fit is the
unique solution of the normal equations, which we compute by Cramer
rule over `ℚ`.
-/

/-- Power sum of the trend indices: `∑ x^k for x in range(n)`. -/
def powSum (n k : ℕ) : ℚ := ∑ i in Finset.range n, (i : ℚ) ^ k

/-- Mixed moment of the targets: `∑ x^k * y[x] for x in range(n)`. -/
def mixSum (y : List ℚ) (k : ℕ) : ℚ :=
  ∑ i in Finset.range y.length, (i : ℚ) ^ k * y.getD i 0

/-- Determinant of a 3×3 matrix given row-wise. -/
def det3x3 (a b c d e f g h i : ℚ) : ℚ :=
  a * (e * i - f * h) - b * (d * i - f * g) + c * (d * h - e * g)

/-- Determinant of the normal-equation (Gram) matrix of the design
`[1, x, x²]`, `x = 0..n-1`. -/
def normalDet (n : ℕ) : ℚ :=
  det3x3 (powSum n 0) (powSum n 1) (powSum n 2)
         (powSum n 1) (powSum n 2) (powSum n 3)
         (powSum n 2) (powSum n 3) (powSum n 4)

/-- The least-squares coefficients `(β₀, β₁, β₂)` of
`y ≈ β₀ + β₁ x + β₂ x²` over `x = 0..len(y)-1`, by Cramer rule on the
normal equations.  This is the prediction-relevant content of
`LinearRegression().fit(X_poly, y)` (the redundant sklearn intercept is
collinear with the bias column of `X_poly` and does not change the
fitted predictions). -/
def fitPoly2 (y : List ℚ) : ℚ × ℚ × ℚ :=
  (det3x3 (mixSum y 0) (powSum y.length 1) (powSum y.length 2)
          (mixSum y 1) (powSum y.length 2) (powSum y.length 3)
          (mixSum y 2) (powSum y.length 3) (powSum y.length 4) /
     normalDet y.length,
   det3x3 (powSum y.length 0) (mixSum y 0) (powSum y.length 2)
          (powSum y.length 1) (mixSum y 1) (powSum y.length 3)
          (powSum y.length 2) (mixSum y 2) (powSum y.length 4) /
     normalDet y.length,
   det3x3 (powSum y.length 0) (powSum y.length 1) (mixSum y 0)
          (powSum y.length 1) (powSum y.length 2) (mixSum y 1)
          (powSum y.length 2) (powSum y.length 3) (mixSum y 2) /
     normalDet y.length)

/-- Evaluation of the fitted polynomial at a point. -/
def evalPoly2 (β : ℚ × ℚ × ℚ) (x : ℚ) : ℚ := β.1 + β.2.1 * x + β.2.2 * x ^ 2

/-- Residual sum of squares of coefficients `β` against targets `y`
over `x = 0..len(y)-1` (the quantity ordinary least squares
minimises). -/
def sse (y : List ℚ) (β : ℚ × ℚ × ℚ) : ℚ :=
  ∑ i in Finset.range y.length, (evalPoly2 β (i : ℚ) - y.getD i 0) ^ 2

/-- Coefficient of determination `sklearn.metrics.r2_score(actual, pred)`:
`1 - SS_res / SS_tot`. -/
def r2Score (actual pred : List ℚ) : ℚ :=
  let m := seriesMean actual
  1 - ((actual.zip pred).map (fun ap => (ap.1 - ap.2) ^ 2)).sum /
      (actual.map (fun a => (a - m) ^ 2)).sum

/-- Mean absolute error `sklearn.metrics.mean_absolute_error(actual, pred)`. -/
def maeScore (actual pred : List ℚ) : ℚ :=
  ((actual.zip pred).map (fun ap => |ap.1 - ap.2|)).sum / actual.length

/-- In-sample predictions of the fitted polynomial over the training
indices (`model.predict(X_poly)`). -/
def lrFittedVals (y : List ℚ) : List ℚ :=
  (List.range y.length).map (fun i => evalPoly2 (fitPoly2 y) (i : ℚ))

/-- Outcome of the executing `forecast_linear_regression`. -/
inductive LROut where
  | insufficient : LROut
  | ok (dates : List ℕ) (values : List ℚ) (r2 : ℚ) : LROut
deriving Repr, DecidableEq

/-- Body of the executing `forecast_linear_regression` from the monthly
aggregation on: positive-filter the monthly series (line 3616), require
6 months (line 3618), fit `1, x, x²` by least squares, forecast
`x = n..n+H-1` clamped to `max(·, 0)`, and report the in-sample
`model.score(X_poly, y)`.  (This method calls `pd.to_datetime` without
`errors=ꞌcoerceꞌ`, so an unparseable date would raise into its
`except`; the embedding covers the tables on which it runs, i.e. all
dates parsed.) -/
def forecastLR (series : List (ℕ × ℚ)) (H : ℕ) : LROut :=
  let s := posFilter series
  if s.length < 6 then LROut.insufficient
  else
    let y := s.map (fun e => e.2)
    LROut.ok (fcDates (lastPeriodOf s) H)
      ((List.range H).map fun i =>
        max 0 (evalPoly2 (fitPoly2 y) ((y.length + i : ℕ) : ℚ)))
      (r2Score y (lrFittedVals y))

/-- Forecast values of the executing linear-regression backend
(`[]` when the backend reports insufficient data). -/
def lrValues (series : List (ℕ × ℚ)) (H : ℕ) : List ℚ :=
  match forecastLR series H with
  | LROut.ok _ v _ => v
  | _ => []

/-- A monthly series with given values, starting at base period `b`. -/
def seriesFrom (b : ℕ) (v : List ℚ) : List (ℕ × ℚ) :=
  (List.range v.length).map (fun i => (b + i, v.getD i 0))

/-!
## The ensemble backends (`forecast_xgboost`, lines 2619–2896, and
`forecast_ml`, lines 3027–3375)
-/

/-- The scikit-learn / xgboost facilities the ensemble backends call:
`sinm m` and `cosm m` are `np.sin(2π·m/12)` and `np.cos(2π·m/12)` for a
calendar month `m`, and `predict` is the fitted regressor applied to
one feature vector (the fitted model is an opaque handle). -/
structure MLModel where
  sinm : ℕ → ℚ
  cosm : ℕ → ℚ
  predict : List ℚ → ℚ

/-- Last `k` elements of a list (`values[-k:]`). -/
def lastN (k : ℕ) (l : List ℚ) : List ℚ := l.drop (l.length - k)

/-- Rolling mean `rolling(window=w, min_periods=1).mean()` at position
`t`: the mean of the at most `w` values ending at `t`. -/
def rollMean (w t : ℕ) (v : List ℚ) : ℚ := seriesMean (lastN w (v.take (t + 1)))

/-- Python slice `l[a:]` (negative `a` counts from the end, clamped). -/
def pyDropFrom (l : List ℚ) (a : ℤ) : List ℚ :=
  if 0 ≤ a then l.drop a.toNat else l.drop ((l.length + a : ℤ)).toNat

/-- Number of held-out rows produced by
`train_test_split(..., test_size=min(frac, 3/len(X)), ...)`:
scikit-learn puts `ceil(n * test_size)` samples in the test set. -/
def testCountOf (frac : ℚ) (n : ℕ) : ℕ :=
  (Int.ceil ((n : ℚ) * min frac (3 / (n : ℚ)))).toNat

/-- Chronological split of `train_test_split(..., shuffle=False)`:
the test set is the trailing `k` rows, the training set the leading
prefix. -/
def chronoSplit {α : Type} (xs : List α) (k : ℕ) : List α × List α :=
  (xs.take (xs.length - k), xs.drop (xs.length - k))

/-- Engineered feature row `t` of `forecast_xgboost` (lines 2647–2677):
`[Период, Месяц, Тренд, Лаг_1, Лаг_2, Лаг_3, МА_3, МА_6, Сезон_sin,
Сезон_cos]` over the (unfiltered) resampled monthly series. -/
def xgbFeatureRow (m : MLModel) (ms : List (ℕ × ℚ)) (t : ℕ) : List ℚ :=
  let v := ms.map (fun e => e.2)
  let p := (ms.getD t (0, 0)).1
  let mo := calMonthOf p
  [(p : ℚ), (mo : ℚ), (t : ℚ),
   v.getD (t - 1) 0, v.getD (t - 2) 0, v.getD (t - 3) 0,
   rollMean 3 t v, rollMean 6 t v, m.sinm mo, m.cosm mo]

/-- Training targets of `forecast_xgboost`: the counts of the rows that
survive `dropna()` (the first three rows lack `Лаг_3`). -/
def xgbTargets (ms : List (ℕ × ℚ)) : List ℚ :=
  (List.range (ms.length - 3)).map (fun j => (ms.getD (j + 3) (0, 0)).2)

/-- Training feature rows of `forecast_xgboost` after `dropna()`. -/
def xgbFeatures (m : MLModel) (ms : List (ℕ × ℚ)) : List (List ℚ) :=
  (List.range (ms.length - 3)).map (fun j => xgbFeatureRow m ms (j + 3))

/-- Feature vector of forecast step `i` of `forecast_xgboost` (lines
2709–2739), given the forecasts `prev` of the previous steps. -/
def xgbFutureRow (m : MLModel) (ms : List (ℕ × ℚ)) (prev : List ℚ) (i : ℕ) :
    List ℚ :=
  let v := ms.map (fun e => e.2)
  let n := ms.length
  let p := lastPeriodOf ms + i + 1
  let mo := calMonthOf p
  let lastV := v.getD (n - 1) 0
  if i = 0 then
    [(p : ℚ), (mo : ℚ), ((n + i : ℕ) : ℚ),
     lastV,
     if 1 < n then v.getD (n - 2) 0 else lastV,
     if 2 < n then v.getD (n - 3) 0 else lastV,
     if 2 < n then seriesMean (lastN 3 v) else lastV,
     if 5 < n then seriesMean (lastN 6 v) else lastV,
     m.sinm mo, m.cosm mo]
  else
    let recent := lastN 3 v ++ prev.take i
    [(p : ℚ), (mo : ℚ), ((n + i : ℕ) : ℚ),
     prev.getD (i - 1) 0,
     if 1 < i then prev.getD (i - 2) 0 else lastV,
     if 2 < i then prev.getD (i - 3) 0 else lastV,
     seriesMean (lastN 3 recent), seriesMean (lastN 6 recent),
     m.sinm mo, m.cosm mo]

/-- The recursive forecast loop of `forecast_xgboost` (lines
2709–2744): step `i` predicts on `xgbFutureRow` and appends
`max(0, prediction)` to the forecasts consumed by later steps. -/
def xgbForecastVals (m : MLModel) (ms : List (ℕ × ℚ)) : ℕ → List ℚ
  | 0 => []
  | h + 1 =>
      let prev := xgbForecastVals m ms h
      prev ++ [max 0 (m.predict (xgbFutureRow m ms prev h))]

/-- Outcome of an ensemble backend.  `insufficient` is the
fewer-than-12-months warning return, `insufficientRows` the
fewer-than-8-rows-after-`dropna` warning return. -/
inductive MLOut where
  | insufficient : MLOut
  | insufficientRows : MLOut
  | ok (dates : List ℕ) (values : List ℚ) (mae r2 : ℚ) : MLOut
deriving Repr, DecidableEq

/-- Body of `forecast_xgboost` from the monthly aggregation on: resample
(keeping zero months — this backend never filters `monthly_data > 0`),
gate on 12 positive months (line 2643) and on 8 rows after `dropna`
(line 2671), hold out the trailing `min(0.2, 3/len)` share
chronologically, score MAE and R² on it, then forecast recursively. -/
def forecastXGB (m : MLModel) (evs : List (ℕ × ℚ)) (H : ℕ) : MLOut :=
  let ms := resampleMS evs
  if posCount ms < 12 then MLOut.insufficient
  else if ms.length - 3 < 8 then MLOut.insufficientRows
  else
    let xs := xgbFeatures m ms
    let ys := xgbTargets ms
    let k := testCountOf (1 / 5) xs.length
    let yTest := (chronoSplit ys k).2
    let pTest := ((chronoSplit xs k).2).map m.predict
    MLOut.ok (fcDates (lastPeriodOf ms) H) (xgbForecastVals m ms H)
      (maeScore yTest pTest) (r2Score yTest pTest)

/-- Engineered feature row `t` of `forecast_ml` (lines 3063–3080):
`[Период, Месяц, Лаг_1, Лаг_2, Скользящее_среднее, Сезон_sin,
Сезон_cos]` over the grouped monthly series. -/
def rfFeatureRow (m : MLModel) (ms : List (ℕ × ℚ)) (t : ℕ) : List ℚ :=
  let v := ms.map (fun e => e.2)
  let p := (ms.getD t (0, 0)).1
  let mo := calMonthOf p
  [(p : ℚ), (mo : ℚ), v.getD (t - 1) 0, v.getD (t - 2) 0,
   rollMean 3 t v, m.sinm mo, m.cosm mo]

/-- Training feature rows of `forecast_ml` after `dropna()` (the first
two rows lack `Лаг_2`). -/
def rfFeatures (m : MLModel) (ms : List (ℕ × ℚ)) : List (List ℚ) :=
  (List.range (ms.length - 2)).map (fun j => rfFeatureRow m ms (j + 2))

/-- Training targets of `forecast_ml` after `dropna()`. -/
def rfTargets (ms : List (ℕ × ℚ)) : List ℚ :=
  (List.range (ms.length - 2)).map (fun j => (ms.getD (j + 2) (0, 0)).2)

/-- Feature vector of forecast step `i` of `forecast_ml` (lines
3108–3144), given the previous forecasts `prev`.  Note the `i = 2` case
of `np.mean(forecast_values[i-3:i])`: the Python slice start `i-3 = -1`
counts from the end, so the mean is over a single element. -/
def rfFutureRow (m : MLModel) (ms : List (ℕ × ℚ)) (prev : List ℚ) (i : ℕ) :
    List ℚ :=
  let v := ms.map (fun e => e.2)
  let n := ms.length
  let p := lastPeriodOf ms + i + 1
  let mo := calMonthOf p
  let lastV := v.getD (n - 1) 0
  if i = 0 then
    [(p : ℚ), (mo : ℚ),
     lastV,
     if 1 < n then v.getD (n - 2) 0 else lastV,
     if 2 < n then seriesMean (lastN 3 v) else lastV,
     m.sinm mo, m.cosm mo]
  else if i = 1 then
    [(p : ℚ), (mo : ℚ),
     prev.getD 0 0, lastV,
     seriesMean [v.getD (n - 2) 0, lastV, prev.getD 0 0],
     m.sinm mo, m.cosm mo]
  else
    [(p : ℚ), (mo : ℚ),
     prev.getD (i - 1) 0, prev.getD (i - 2) 0,
     seriesMean (pyDropFrom prev ((i : ℤ) - 3)),
     m.sinm mo, m.cosm mo]

/-- The recursive forecast loop of `forecast_ml` (lines 3108–3148). -/
def rfForecastVals (m : MLModel) (ms : List (ℕ × ℚ)) : ℕ → List ℚ
  | 0 => []
  | h + 1 =>
      let prev := rfForecastVals m ms h
      prev ++ [max 0 (m.predict (rfFutureRow m ms prev h))]

/-- The month-overflow loop of `forecast_ml` (lines 3118–3120):
`while new_month > 12: new_month -= 12; new_year += 1`. -/
def rollMonth (y m : ℕ) : ℕ × ℕ :=
  if 12 < m then rollMonth (y + 1) (m - 12) else (y, m)
termination_by m
decreasing_by omega

/-- Forecast dates of `forecast_ml`, one per step, as period indices of
the rolled year/month pair (both the `pd.Timestamp` branch and its
fallback produce this calendar month). -/
def rfDates (lastP H : ℕ) : List ℕ :=
  (List.range H).map fun i =>
    (rollMonth (yearOf lastP) (calMonthOf lastP + i + 1)).1 * 12 +
      (rollMonth (yearOf lastP) (calMonthOf lastP + i + 1)).2

/-- Body of `forecast_ml` (Random Forest) from the monthly aggregation
on: group by the months present (no zero filling), gate on 12 months
(line 3059) and 8 rows after `dropna` (line 3075), hold out the
trailing `min(0.3, 3/len)` share chronologically, score MAE and R² on
it, then forecast recursively. -/
def forecastRF (m : MLModel) (evs : List (ℕ × ℚ)) (H : ℕ) : MLOut :=
  let ms := groupByMonths evs
  if ms.length < 12 then MLOut.insufficient
  else if ms.length - 2 < 8 then MLOut.insufficientRows
  else
    let xs := rfFeatures m ms
    let ys := rfTargets ms
    let k := testCountOf (3 / 10) xs.length
    let yTest := (chronoSplit ys k).2
    let pTest := ((chronoSplit xs k).2).map m.predict
    MLOut.ok (rfDates (lastPeriodOf ms) H) (rfForecastVals m ms H)
      (maeScore yTest pTest) (r2Score yTest pTest)

/-! ## The dispatcher (`build_forecast`, lines 2368–2439) -/

/-- The selectable backends (`model_var`). -/
inductive Backend where
  | xgboost | randomForest | linearRegression | sarima
deriving Repr, DecidableEq

/-- Observable outcome of calling one `forecast_*` method.  Every one
of these methods wraps its whole body in `try/except Exception` and
returns normally (lines 2443/2616, 2628/2892, 3033/3523, 3608/3687), so
an exception during fit or predict is swallowed inside the method
(`raisesInside`: an error dialog, no stored result), a short history
produces a warning return (`noResult`) and success stores a forecast
(`delivers`). -/
inductive MethodRun where
  | delivers (forecast : ℚ) : MethodRun
  | noResult : MethodRun
  | raisesInside : MethodRun
deriving Repr, DecidableEq

/-- What a method run leaves in `self.forecast_results`. -/
def methodOut : MethodRun → Option ℚ
  | MethodRun.delivers f => some f
  | _ => none

/-- The dispatch of `build_forecast` (lines 2384–2420): the chosen
backend runs when its library flag is set, otherwise a dialog is shown
and `forecast_sarima` runs instead.  The `except` of lines 2422–2437
(retry with SARIMA) is dead for backend failures, because each
`forecast_*` method traps its own exceptions and returns normally; it
is therefore not part of the reachable behaviour modelled here.  The
result is the list of backend methods actually run and the forecast
delivered, if any. -/
def buildForecast (chosen : Backend) (xgbAvail skAvail : Bool)
    (run : Backend → MethodRun) : List Backend × Option ℚ :=
  match chosen with
  | Backend.xgboost =>
      if xgbAvail then ([Backend.xgboost], methodOut (run Backend.xgboost))
      else ([Backend.sarima], methodOut (run Backend.sarima))
  | Backend.randomForest =>
      if skAvail then ([Backend.randomForest], methodOut (run Backend.randomForest))
      else ([Backend.sarima], methodOut (run Backend.sarima))
  | Backend.linearRegression =>
      if skAvail then
        ([Backend.linearRegression], methodOut (run Backend.linearRegression))
      else ([Backend.sarima], methodOut (run Backend.sarima))
  | Backend.sarima => ([Backend.sarima], methodOut (run Backend.sarima))

/-! ## Definitions modelled from the specification text
(for refinement comparisons only; everything above is from the source) -/

/-- Modelled from the spec: "suffix size = max(3, 20–30% of rows,
bounded by available data)" — the held-out suffix the specification
prescribes for a percentage `p` (in percent). -/
def specSuffixSize (n p : ℕ) : ℕ := max 3 (min n (n * p / 100))

/-! ## Concrete inputs used by counterexamples and witnesses -/

/-- Monthly series of 8 contiguous strictly positive months. -/
def series8 : List (ℕ × ℚ) :=
  (List.range 8).map (fun i => (2024 * 12 + 1 + i, ((i % 3 : ℕ) : ℚ) + 2))

/-- Events spanning 13 contiguous months in which exactly the seventh
month has total 0: 12 strictly positive months, one zero month. -/
def evsZero13 : List (ℕ × ℚ) :=
  (List.range 13).map (fun i => (2022 * 12 + 1 + i, if i = 6 then 0 else 3))

/-- Events spanning 7 contiguous months in which the fourth month has
total 0: 6 strictly positive months around a gap-to-be. -/
def evsGap7 : List (ℕ × ℚ) :=
  (List.range 7).map (fun i => (2024 * 12 + 1 + i, if i = 3 then 0 else 2))

/-- A deterministic stand-in for the statsmodels handle in which every
candidate fit converges with a tie in the AIC: orders `(0,0,1)` and
`(0,1,0)` both score 5, everything else 9. -/
def aicTie : ℕ × ℕ × ℕ → Option ℚ :=
  fun c => some (if c = (0, 0, 1) ∨ c = (0, 1, 0) then 5 else 9)

/-- A concrete ML library stand-in: zero season encodings, a constant
regressor. -/
def mlConst : MLModel := ⟨fun _ => 0, fun _ => 0, fun _ => 1⟩

/-- A concrete statsmodels stand-in in which every fit converges. -/
def arimaOkLib : ArimaLib := ⟨true, fun _ => some 1, fun _ _ => 2⟩

/-- Projection of a SARIMA outcome to its forecast, when one was
produced. -/
def sarimaVals : SarimaOut → Option (List ℕ × List ℚ)
  | SarimaOut.okArima _ d v => some (d, v)
  | SarimaOut.okSimple d v => some (d, v)
  | _ => none

/-! ## Helper lemmas -/

theorem pyVarEqObj_classes : pyVarEqObj "StringVar" "str" = false := by decide

theorem filter_if_sublist_map {α β : Type} (f : α → β) (P : α → Bool) :
    ∀ l : List α,
      List.Sublist (l.filterMap fun a => if P a then some (f a) else none)
        (l.map f) := by
  intro l
  induction l with
  | nil => simp
  | cons x t ih =>
      by_cases h : P x
      · simpa [List.filterMap_cons, h] using List.Sublist.cons₂ (f x) ih
      · simpa [List.filterMap_cons, h] using List.Sublist.cons (f x) ih

theorem resampleMS_keys_pairwise (evs : List (ℕ × ℚ)) :
    ((resampleMS evs).map (fun e => e.1)).Pairwise (· < ·) := by
  unfold resampleMS
  cases evs with
  | nil => simp
  | cons x t =>
      rw [List.map_map]
      refine (List.pairwise_map.mpr ?_)
      refine (List.pairwise_lt_range _).imp ?_
      intro a b hab
      simpa using hab

theorem sarima_not_insufficient (lib : ArimaLib) (series : List (ℕ × ℚ))
    (H : ℕ) (h : 24 ≤ posCount series) :
    ∀ fuel, forecastSarima lib series H fuel ≠ SarimaOut.insufficient := by
  intro fuel
  induction fuel with
  | zero => simp [forecastSarima]
  | succ n ih =>
      rw [forecastSarima]
      rw [if_neg (by omega)]
      by_cases hsm : lib.statsmodels
      · simp only [hsm, if_true]
        cases hb : searchBest lib.aic with
        | none => simpa using ih
        | some p => simp
      · simp [hsm]

theorem xgbForecastVals_length (m : MLModel) (ms : List (ℕ × ℚ)) :
    ∀ H, (xgbForecastVals m ms H).length = H := by
  intro H
  induction H with
  | zero => rfl
  | succ h ih => simp [xgbForecastVals, ih]

theorem xgbForecastVals_nonneg (m : MLModel) (ms : List (ℕ × ℚ)) :
    ∀ H, ∀ q ∈ xgbForecastVals m ms H, 0 ≤ q := by
  intro H
  induction H with
  | zero => simp [xgbForecastVals]
  | succ h ih =>
      intro q hq
      rw [xgbForecastVals] at hq
      rcases List.mem_append.mp hq with hq | hq
      · exact ih q hq
      · rcases List.mem_singleton.mp hq with rfl
        exact le_max_left 0 _

theorem rfForecastVals_length (m : MLModel) (ms : List (ℕ × ℚ)) :
    ∀ H, (rfForecastVals m ms H).length = H := by
  intro H
  induction H with
  | zero => rfl
  | succ h ih => simp [rfForecastVals, ih]

theorem rfForecastVals_nonneg (m : MLModel) (ms : List (ℕ × ℚ)) :
    ∀ H, ∀ q ∈ rfForecastVals m ms H, 0 ≤ q := by
  intro H
  induction H with
  | zero => simp [rfForecastVals]
  | succ h ih =>
      intro q hq
      rw [rfForecastVals] at hq
      rcases List.mem_append.mp hq with hq | hq
      · exact ih q hq
      · rcases List.mem_singleton.mp hq with rfl
        exact le_max_left 0 _

theorem searchFold_min (aic : ℕ × ℕ × ℕ → Option ℚ) :
    ∀ (l : List (ℕ × ℕ × ℕ)) (acc : Option ((ℕ × ℕ × ℕ) × ℚ)),
      (∀ b ab, acc = some (b, ab) → aic b = some ab) →
      ∀ (c : ℕ × ℕ × ℕ) (a : ℚ),
        l.foldl (searchStep aic) acc = some (c, a) →
        aic c = some a ∧
        (∀ x ∈ l, ∀ ax, aic x = some ax → a ≤ ax) ∧
        (acc = some (c, a) ∨
          ∃ l₁ l₂, l = l₁ ++ c :: l₂ ∧
            (∀ b ab, acc = some (b, ab) → a < ab) ∧
            (∀ x ∈ l₁, ∀ ax, aic x = some ax → a < ax)) := by
  intro l
  induction l with
  | nil =>
      intro acc hacc c a hfold
      simp only [List.foldl_nil] at hfold
      exact ⟨hacc c a hfold, by simp, Or.inl hfold⟩
  | cons x t ih =>
      intro acc hacc c a hfold
      simp only [List.foldl_cons] at hfold
      rcases hax : aic x with _ | ax
      · have hstep : searchStep aic acc x = acc := by simp [searchStep, hax]
        rw [hstep] at hfold
        obtain ⟨h1, h2, h3⟩ := ih acc hacc c a hfold
        refine ⟨h1, ?_, ?_⟩
        · intro z hz az haz
          rcases List.mem_cons.mp hz with rfl | hz
          · rw [hax] at haz; cases haz
          · exact h2 z hz az haz
        · rcases h3 with h3 | ⟨l₁, l₂, hsp, hstrict, hearly⟩
          · exact Or.inl h3
          · refine Or.inr ⟨x :: l₁, l₂, by rw [hsp]; rfl, hstrict, ?_⟩
            intro z hz az haz
            rcases List.mem_cons.mp hz with rfl | hz
            · rw [hax] at haz; cases haz
            · exact hearly z hz az haz
      · cases acc with
        | none =>
            have hstep : searchStep aic none x = some (x, ax) := by
              simp [searchStep, hax]
            rw [hstep] at hfold
            have hacc2 : ∀ b ab,
                (some (x, ax) : Option ((ℕ × ℕ × ℕ) × ℚ)) = some (b, ab) →
                aic b = some ab := by
              intro b ab h
              rw [Option.some.injEq, Prod.mk.injEq] at h
              obtain ⟨rfl, rfl⟩ := h
              exact hax
            obtain ⟨h1, h2, h3⟩ := ih _ hacc2 c a hfold
            have haax : a ≤ ax := by
              rcases h3 with h3 | ⟨_, _, _, hstrict, _⟩
              · rw [Option.some.injEq, Prod.mk.injEq] at h3
                exact le_of_eq h3.2.symm
              · exact le_of_lt (hstrict x ax rfl)
            refine ⟨h1, ?_, ?_⟩
            · intro z hz az haz
              rcases List.mem_cons.mp hz with rfl | hz
              · rw [hax] at haz
                injection haz with h
                subst h
                exact haax
              · exact h2 z hz az haz
            · rcases h3 with h3 | ⟨l₁, l₂, hsp, hstrict, hearly⟩
              · rw [Option.some.injEq, Prod.mk.injEq] at h3
                obtain ⟨rfl, rfl⟩ := h3
                refine Or.inr ⟨[], t, by simp, ?_, by simp⟩
                intro b ab hb
                cases hb
              · refine Or.inr ⟨x :: l₁, l₂, by rw [hsp]; rfl, ?_, ?_⟩
                · intro b ab hb
                  cases hb
                · intro z hz az haz
                  rcases List.mem_cons.mp hz with rfl | hz
                  · rw [hax] at haz
                    injection haz with h
                    subst h
                    exact hstrict _ _ rfl
                  · exact hearly z hz az haz
        | some p =>
            obtain ⟨b, ab⟩ := p
            by_cases hlt : ax < ab
            · have hstep : searchStep aic (some (b, ab)) x = some (x, ax) := by
                simp [searchStep, hax, hlt]
              rw [hstep] at hfold
              have hacc2 : ∀ bb aab,
                  (some (x, ax) : Option ((ℕ × ℕ × ℕ) × ℚ)) = some (bb, aab) →
                  aic bb = some aab := by
                intro bb aab h
                rw [Option.some.injEq, Prod.mk.injEq] at h
                obtain ⟨rfl, rfl⟩ := h
                exact hax
              obtain ⟨h1, h2, h3⟩ := ih _ hacc2 c a hfold
              have haax : a ≤ ax := by
                rcases h3 with h3 | ⟨_, _, _, hstrict, _⟩
                · rw [Option.some.injEq, Prod.mk.injEq] at h3
                  exact le_of_eq h3.2.symm
                · exact le_of_lt (hstrict x ax rfl)
              have hastrict : a < ab := lt_of_le_of_lt haax hlt
              refine ⟨h1, ?_, ?_⟩
              · intro z hz az haz
                rcases List.mem_cons.mp hz with rfl | hz
                · rw [hax] at haz
                  injection haz with h
                  subst h
                  exact haax
                · exact h2 z hz az haz
              · rcases h3 with h3 | ⟨l₁, l₂, hsp, hstrict, hearly⟩
                · rw [Option.some.injEq, Prod.mk.injEq] at h3
                  obtain ⟨rfl, rfl⟩ := h3
                  refine Or.inr ⟨[], t, by simp, ?_, by simp⟩
                  intro bb aab hb
                  rw [Option.some.injEq, Prod.mk.injEq] at hb
                  obtain ⟨rfl, rfl⟩ := hb
                  exact hastrict
                · refine Or.inr ⟨x :: l₁, l₂, by rw [hsp]; rfl, ?_, ?_⟩
                  · intro bb aab hb
                    rw [Option.some.injEq, Prod.mk.injEq] at hb
                    obtain ⟨rfl, rfl⟩ := hb
                    exact hastrict
                  · intro z hz az haz
                    rcases List.mem_cons.mp hz with rfl | hz
                    · rw [hax] at haz
                      injection haz with h
                      subst h
                      exact hstrict _ _ rfl
                    · exact hearly z hz az haz
            · have hstep : searchStep aic (some (b, ab)) x = some (b, ab) := by
                simp [searchStep, hax, hlt]
              rw [hstep] at hfold
              obtain ⟨h1, h2, h3⟩ := ih _ hacc c a hfold
              have hple : a ≤ ab := by
                rcases h3 with h3 | ⟨_, _, _, hstrict, _⟩
                · rw [Option.some.injEq, Prod.mk.injEq] at h3
                  exact le_of_eq h3.2.symm
                · exact le_of_lt (hstrict b ab rfl)
              refine ⟨h1, ?_, ?_⟩
              · intro z hz az haz
                rcases List.mem_cons.mp hz with rfl | hz
                · rw [hax] at haz
                  injection haz with h
                  subst h
                  exact le_trans hple (not_lt.mp hlt)
                · exact h2 z hz az haz
              · rcases h3 with h3 | ⟨l₁, l₂, hsp, hstrict, hearly⟩
                · exact Or.inl h3
                · refine Or.inr ⟨x :: l₁, l₂, by rw [hsp]; rfl, hstrict, ?_⟩
                  intro z hz az haz
                  rcases List.mem_cons.mp hz with rfl | hz
                  · rw [hax] at haz
                    injection haz with h
                    subst h
                    exact lt_of_lt_of_le (hstrict b ab rfl) (not_lt.mp hlt)
                  · exact hearly z hz az haz

/-! ## Claim theorems -/

/-- C1 (code_bug): the region filter never performs the exact-match
selection the specification describes.  Because the code compares the
`tk.StringVar` object itself (never calling `.get()`), the guard
`region_filter != ꞌВсеꞌ` is true even when the user selected the
all-regions value `Все`, and the mask `data[ꞌРегионꞌ] == region_filter`
is false on every row — so whenever the variable exists and the table
has a region column, every row is removed, for every selection.  The
last conjunct records what the specified exact-match filter does with
the same all-regions selection: it keeps every row. -/
theorem c1_region_filter_removes_every_row :
    (∀ (sel : String) (rows : List Row),
        applyRegionFilter (RegionSel.svar sel) true rows = []) ∧
    applyRegionFilter (RegionSel.svar "Все") true demoRows = [] ∧
    specRegionFilter "Все" demoRows = demoRows := by
  refine ⟨fun sel rows => ?_, ?_, by decide⟩
  · simp [applyRegionFilter, pyVarEqObj_classes]
  · simp [applyRegionFilter, pyVarEqObj_classes]

/-- C4 counterexample: with XGBoost chosen and available, an exception
inside its fit/predict is swallowed by the method itself — the run
trace contains only XGBoost and no forecast is delivered, contradicting
the claim that the coordinator advances through a priority order ending
in a guaranteed LinearTrend so that a forecast is still delivered. -/
theorem c4_backend_failure_no_fallback :
    buildForecast Backend.xgboost true true (fun _ => MethodRun.raisesInside) =
      ([Backend.xgboost], none) := by
  decide

/-- C4 (amended): any exception during a backend's fit/predict is
caught inside that backend's own `try/except` and the dispatcher
attempts no further backend (the run trace stays `[chosen]`); the only
fallback `build_forecast` performs is the library-availability check,
which always substitutes SARIMA (not LinearTrend); and when every
method fails internally nothing is delivered — delivery is not
guaranteed. -/
theorem c4_fallback_goes_to_sarima_only :
    (∀ (sk : Bool) (run : Backend → MethodRun),
        buildForecast Backend.xgboost true sk run =
          ([Backend.xgboost], methodOut (run Backend.xgboost))) ∧
    (∀ (chosen : Backend) (xa sk : Bool) (run : Backend → MethodRun),
        (buildForecast chosen xa sk run).1 = [chosen] ∨
        (buildForecast chosen xa sk run).1 = [Backend.sarima]) ∧
    (∀ (chosen : Backend) (xa sk : Bool),
        (buildForecast chosen xa sk (fun _ => MethodRun.raisesInside)).2 =
          none) := by
  refine ⟨fun sk run => rfl, fun chosen xa sk run => ?_, fun chosen xa sk => ?_⟩
  · cases chosen <;> cases xa <;> cases sk <;> simp [buildForecast]
  · cases chosen <;> cases xa <;> cases sk <;> rfl

/-- C5 (code_bug): when statsmodels is available but no ARIMA candidate
converges, `forecast_sarima` does not substitute the manual
trend-plus-seasonal decomposition; line 2552 re-enters the function
with `STATSMODELS_AVAILABLE` still true (its comment claims the flag is
false), so the identical search repeats at every depth and the call
never produces a forecast for any recursion budget. -/
theorem c5_no_viable_order_recurses_forever :
    ∀ (fc : ℕ × ℕ × ℕ → ℕ → ℚ) (H fuel : ℕ),
      forecastSarima ⟨true, fun _ => none, fc⟩ series24 H fuel =
        SarimaOut.recursionDepth := by
  intro fc H fuel
  induction fuel with
  | zero => rfl
  | succ n ih =>
      rw [forecastSarima]
      have h24 : posCount series24 = 24 := by
        norm_num [posCount, posFilter, series24, List.range_succ]
      rw [if_neg (by omega)]
      simpa [searchBest, arimaCandidates, searchStep] using ih

/-- C7 (confirmed): whenever the ARIMA order search selects an order,
that order was actually fitted with the recorded AIC, its AIC is ≤ the
AIC of every other candidate whose fit succeeded, and the selected
order sits at a position of the ascending `(p, d, q)` enumeration such
that every earlier successfully fitted candidate has strictly larger
AIC — so ties keep the first candidate found. -/
theorem c7_order_search_selects_first_min :
    ∀ (aic : ℕ × ℕ × ℕ → Option ℚ),
      match searchBest aic with
      | none => True
      | some (c, a) =>
          aic c = some a ∧
          (∀ x ∈ arimaCandidates, ∀ ax, aic x = some ax → a ≤ ax) ∧
          ∃ l₁ l₂, arimaCandidates = l₁ ++ c :: l₂ ∧
            ∀ x ∈ l₁, ∀ ax, aic x = some ax → a < ax := by
  intro aic
  rcases hb : searchBest aic with _ | ⟨c, a⟩
  · simp
  · simp only []
    obtain ⟨h1, h2, h3⟩ :=
      searchFold_min aic arimaCandidates none (by simp) c a hb
    refine ⟨h1, h2, ?_⟩
    rcases h3 with h3 | ⟨l₁, l₂, hsp, _, hearly⟩
    · cases h3
    · exact ⟨l₁, l₂, hsp, hearly⟩

/-- C7 witness: on the concrete tie `aicTie` (orders `(0,0,1)` and
`(0,1,0)` both score AIC 5, everything else 9) the search selects
`(0,0,1)`, the earlier of the two tied candidates, and the selection
theorem instantiates to the minimality property at that input. -/
theorem c7_order_search_witness :
    searchBest aicTie = some ((0, 0, 1), 5) ∧
    aicTie (0, 0, 1) = some 5 ∧
    (∀ x ∈ arimaCandidates, ∀ ax, aicTie x = some ax → (5 : ℚ) ≤ ax) := by
  have heval : searchBest aicTie = some ((0, 0, 1), 5) := by
    norm_num +decide [searchBest, arimaCandidates, searchStep, aicTie,
      List.range_succ, List.flatMap, Prod.mk.injEq]
  have h := c7_order_search_selects_first_min aicTie
  rw [heval] at h
  exact ⟨heval, h.1, h.2.1⟩

/-- C3 counterexample: a monthly history of only 8 positive months —
below the 12-month minimum the claim states for the Linear Regression
backend — is not reported as insufficient: the executing
`forecast_linear_regression` requires merely 6 months (line 3618) and
proceeds to fit. -/
theorem c3_lr_fits_below_twelve_months :
    forecastLR series8 1 ≠ LROut.insufficient ∧ posCount series8 = 8 := by
  have h8 : (posFilter series8).length = 8 := by
    norm_num [posFilter, series8, List.range_succ]
  constructor
  · simp [forecastLR, h8]
  · exact h8

/-- C3 (amended): the history minimums actually enforced are 24
positive months for SARIMA, 12 positive months for XGBoost, 12 present
months for Random Forest and 6 positive months for Linear Regression;
below its minimum a backend reports insufficiency and fits nothing, at
or above it the fit stage is reached (the secondary 8-row check of
XGBoost can never fire once its 12-month gate passed). -/
theorem c3_minimum_history_amended :
    (∀ (lib : ArimaLib) (series : List (ℕ × ℚ)) (H fuel : ℕ),
        forecastSarima lib series H (fuel + 1) = SarimaOut.insufficient ↔
          posCount series < 24) ∧
    (∀ (m : MLModel) (evs : List (ℕ × ℚ)) (H : ℕ),
        forecastXGB m evs H = MLOut.insufficient ↔
          posCount (resampleMS evs) < 12) ∧
    (∀ (m : MLModel) (evs : List (ℕ × ℚ)) (H : ℕ),
        forecastXGB m evs H ≠ MLOut.insufficientRows) ∧
    (∀ (m : MLModel) (evs : List (ℕ × ℚ)) (H : ℕ),
        (∃ d v g r, forecastXGB m evs H = MLOut.ok d v g r) ↔
          12 ≤ posCount (resampleMS evs)) ∧
    (∀ (m : MLModel) (evs : List (ℕ × ℚ)) (H : ℕ),
        (∃ d v g r, forecastRF m evs H = MLOut.ok d v g r) ↔
          12 ≤ (groupByMonths evs).length) ∧
    (∀ (series : List (ℕ × ℚ)) (H : ℕ),
        (∃ d v r, forecastLR series H = LROut.ok d v r) ↔
          6 ≤ (posFilter series).length) := by
  refine ⟨?_, ?_, ?_, ?_, ?_, ?_⟩
  · intro lib series H fuel
    constructor
    · intro h
      by_contra hge
      push_neg at hge
      exact sarima_not_insufficient lib series H hge (fuel + 1) h
    · intro h
      rw [forecastSarima, if_pos h]
  · intro m evs H
    have hle : posCount (resampleMS evs) ≤ (resampleMS evs).length :=
      List.length_filter_le _ _
    constructor
    · intro h
      by_contra hge
      push_neg at hge
      rw [forecastXGB, if_neg (by omega), if_neg (by omega)] at h
      simp at h
    · intro h
      rw [forecastXGB, if_pos h]
  · intro m evs H
    have hle : posCount (resampleMS evs) ≤ (resampleMS evs).length :=
      List.length_filter_le _ _
    intro h
    by_cases hg : posCount (resampleMS evs) < 12
    · rw [forecastXGB, if_pos hg] at h
      simp at h
    · rw [forecastXGB, if_neg hg, if_neg (by omega)] at h
      simp at h
  · intro m evs H
    have hle : posCount (resampleMS evs) ≤ (resampleMS evs).length :=
      List.length_filter_le _ _
    constructor
    · rintro ⟨d, v, g, r, h⟩
      by_contra hg
      push_neg at hg
      rw [forecastXGB, if_pos hg] at h
      simp at h
    · intro h
      rw [forecastXGB, if_neg (by omega), if_neg (by omega)]
      exact ⟨_, _, _, _, rfl⟩
  · intro m evs H
    constructor
    · rintro ⟨d, v, g, r, h⟩
      by_contra hg
      push_neg at hg
      rw [forecastRF, if_pos hg] at h
      simp at h
    · intro h
      rw [forecastRF, if_neg (by omega), if_neg (by omega)]
      exact ⟨_, _, _, _, rfl⟩
  · intro series H
    constructor
    · rintro ⟨d, v, r, h⟩
      by_contra hg
      push_neg at hg
      rw [forecastLR, if_pos hg] at h
      simp at h
    · intro h
      rw [forecastLR, if_neg (by omega)]
      exact ⟨_, _, _, rfl⟩

/-- C9 counterexample: the series handed to the Linear Regression fit
for the concrete events `evsGap7` (a zero-count month surrounded by
positive months) passes the history gate, yet its periods are not
consecutive — the zero month was removed by the `> 0` filter rather
than coalesced to zero, leaving a gap. -/
theorem c9_zero_month_creates_gap :
    forecastLR (resampleMS evsGap7) 1 ≠ LROut.insufficient ∧
    ¬ List.Chain' (fun a b => b = a + 1)
        ((posFilter (resampleMS evsGap7)).map (fun e => e.1)) := by
  have hres : resampleMS evsGap7 =
      [(24289, 2), (24290, 2), (24291, 2), (24292, 0),
       (24293, 2), (24294, 2), (24295, 2)] := by
    norm_num [resampleMS, evsGap7, minPeriod, maxPeriod, sumAt,
      List.range_succ]
  have hpos : posFilter (resampleMS evsGap7) =
      [(24289, 2), (24290, 2), (24291, 2),
       (24293, 2), (24294, 2), (24295, 2)] := by
    rw [hres]
    norm_num [posFilter]
  constructor
  · have h6 : (posFilter (resampleMS evsGap7)).length = 6 := by
      rw [hpos]
      rfl
    simp [forecastLR, h6]
  · rw [hpos]
    simp [List.chain'_cons]

/-- C9 (amended): the monthly series each backend fits has unique,
strictly increasing periods, but it is not gap-free: SARIMA and Linear
Regression fit the positive-filtered resampled series and Random
Forest fits only the months present among the events, so a zero-count
or absent month leaves consecutive entries more than one month apart
(only the unfiltered resampled series XGBoost uses is gap-free by
construction). -/
theorem c9_fitted_series_strictly_increasing :
    ∀ evs : List (ℕ × ℚ),
      ((posFilter (resampleMS evs)).map (fun e => e.1)).Pairwise (· < ·) ∧
      ((groupByMonths evs).map (fun e => e.1)).Pairwise (· < ·) ∧
      ((resampleMS evs).map (fun e => e.1)).Pairwise (· < ·) := by
  intro evs
  have hres := resampleMS_keys_pairwise evs
  refine ⟨?_, ?_, hres⟩
  · have hsubf : List.Sublist (posFilter (resampleMS evs)) (resampleMS evs) :=
      List.filter_sublist _
    exact List.Pairwise.sublist (hsubf.map (fun e => e.1)) hres
  · refine List.Pairwise.sublist ?_ hres
    have hsub : List.Sublist (groupByMonths evs) (resampleMS evs) := by
      unfold groupByMonths resampleMS
      cases evs with
      | nil => simp
      | cons x t => exact filter_if_sublist_map _ _ _
    exact hsub.map (fun e => e.1)

theorem xgbTargets_eq_drop (ms : List (ℕ × ℚ)) :
    xgbTargets ms = (ms.map (fun e => e.2)).drop 3 := by
  apply List.ext_getElem
  · simp [xgbTargets]
  · intro i h1 h2
    simp only [xgbTargets, List.length_map, List.length_range] at h1
    have hlt : i + 3 < ms.length := by omega
    have hei : (3 : ℕ) + i = i + 3 := by omega
    simp only [xgbTargets, List.getElem_map, List.getElem_range,
      List.getElem_drop, hei]
    rw [List.getD_eq_getElem _ _ hlt]

/-- C8 counterexample: for the concrete events `evsZero13` (thirteen
contiguous months, the seventh totalling zero) the XGBoost backend
passes its 12-positive-month gate and its training targets contain the
zero month — the zero-count month is not excluded from its training
set, contradicting the claim that every backend fits exactly the
strictly positive months. -/
theorem c8_xgb_trains_on_zero_month :
    (0 : ℚ) ∈ xgbTargets (resampleMS evsZero13) ∧
    posCount (resampleMS evsZero13) = 12 ∧
    forecastXGB mlConst evsZero13 1 ≠ MLOut.insufficient := by
  have hres : resampleMS evsZero13 =
      [(24265, 3), (24266, 3), (24267, 3), (24268, 3), (24269, 3),
       (24270, 3), (24271, 0), (24272, 3), (24273, 3), (24274, 3),
       (24275, 3), (24276, 3), (24277, 3)] := by
    norm_num [resampleMS, evsZero13, minPeriod, maxPeriod, sumAt,
      List.range_succ]
  have hcount : posCount (resampleMS evsZero13) = 12 := by
    rw [posCount, posFilter, hres]
    norm_num
  refine ⟨?_, hcount, ?_⟩
  · rw [xgbTargets_eq_drop, hres]
    norm_num
  · have hlen : (resampleMS evsZero13).length = 13 := by rw [hres]; rfl
    rw [forecastXGB, if_neg (by omega), if_neg (by omega)]
    simp

/-- C8 (amended): only SARIMA and the executing Linear Regression fit
exactly the strictly positive months (their fitted series is the
`> 0`-filtered aggregation); XGBoost trains on every resampled month —
its target vector is the whole value sequence after the three lag rows
— and so keeps zero-count months, as the concrete `evsZero13` run
shows. -/
theorem c8_positive_training_amended :
    (∀ (series : List (ℕ × ℚ)), ∀ e ∈ posFilter series, 0 < e.2) ∧
    (∀ ms : List (ℕ × ℚ), xgbTargets ms = (ms.map (fun e => e.2)).drop 3) ∧
    (0 : ℚ) ∈ xgbTargets (resampleMS evsZero13) := by
  refine ⟨?_, xgbTargets_eq_drop, ?_⟩
  · intro series e he
    have := (List.mem_filter.mp he).2
    exact of_decide_eq_true this
  · have hres : resampleMS evsZero13 =
        [(24265, 3), (24266, 3), (24267, 3), (24268, 3), (24269, 3),
         (24270, 3), (24271, 0), (24272, 3), (24273, 3), (24274, 3),
         (24275, 3), (24276, 3), (24277, 3)] := by
      norm_num [resampleMS, evsZero13, minPeriod, maxPeriod, sumAt,
        List.range_succ]
    rw [xgbTargets_eq_drop, hres]
    norm_num

/-- C8 witness: the positivity part of the amended claim instantiated
at a concrete member of a concrete fitted series. -/
theorem c8_positive_training_witness :
    ((24289 : ℕ), (2 : ℚ)) ∈ posFilter series8 ∧ (0 : ℚ) < 2 := by
  have hm : ((24289 : ℕ), (2 : ℚ)) ∈ posFilter series8 := by
    norm_num [posFilter, series8, List.range_succ]
  exact ⟨hm, c8_positive_training_amended.1 series8 _ hm⟩

theorem testCountOf_le_three (frac : ℚ) (n : ℕ) : testCountOf frac n ≤ 3 := by
  unfold testCountOf
  cases n with
  | zero => simp
  | succ k =>
      have hpos : (0 : ℚ) < ((k + 1 : ℕ) : ℚ) := by positivity
      have hle : ((k + 1 : ℕ) : ℚ) * min frac (3 / ((k + 1 : ℕ) : ℚ)) ≤ 3 := by
        have h1 : ((k + 1 : ℕ) : ℚ) * min frac (3 / ((k + 1 : ℕ) : ℚ)) ≤
            ((k + 1 : ℕ) : ℚ) * (3 / ((k + 1 : ℕ) : ℚ)) :=
          mul_le_mul_of_nonneg_left (min_le_right _ _) (le_of_lt hpos)
        have h2 : ((k + 1 : ℕ) : ℚ) * (3 / ((k + 1 : ℕ) : ℚ)) = 3 := by
          field_simp
        linarith
      have hceil : Int.ceil (((k + 1 : ℕ) : ℚ) * min frac (3 / ((k + 1 : ℕ) : ℚ))) ≤ 3 :=
        Int.ceil_le.mpr (by exact_mod_cast hle)
      omega

/-- C6 counterexample: with 100 engineered rows, the XGBoost evaluation
suffix the code produces has 3 rows (`test_size = min(0.2, 3/len)`
yields the cap, not the floor), while the suffix the claim prescribes —
`max(3, p% of rows)` for any `p` between 20 and 30 — has at least 20
rows. -/
theorem c6_suffix_size_contradicts_claim :
    testCountOf (1 / 5) 100 = 3 ∧
    (∀ p, 20 ≤ p → p ≤ 30 → 20 ≤ specSuffixSize 100 p) ∧
    (3 : ℕ) < 20 := by
  refine ⟨?_, ?_, by norm_num⟩
  · have hmin : ((100 : ℕ) : ℚ) * min (1 / 5) (3 / ((100 : ℕ) : ℚ)) = 3 := by
      rw [min_eq_right (by norm_num : (3 : ℚ) / ((100 : ℕ) : ℚ) ≤ 1 / 5)]
      norm_num
    unfold testCountOf
    rw [hmin]
    norm_num
    rfl
  · intro p h20 h30
    unfold specSuffixSize
    omega

/-- C6 (amended): the held-out suffix is chronological (the trailing
rows of the engineered table, the prefix being the training set), but
its size is `ceil(n · min(frac, 3/n))` — at most 3 rows for every `n`
(2 rows for XGBoost at `n = 8`) — not `max(3, 20–30%)`; and the
executing Linear Regression performs no split at all: its reported R²
is computed on the very series it was fitted to, with no MAE. -/
theorem c6_eval_split_amended :
    (∀ n, testCountOf (1 / 5) n ≤ 3) ∧
    (∀ n, testCountOf (3 / 10) n ≤ 3) ∧
    testCountOf (1 / 5) 8 = 2 ∧
    (∀ (xs : List ℚ) (k : ℕ),
        (chronoSplit xs k).1 ++ (chronoSplit xs k).2 = xs ∧
        (chronoSplit xs k).2.length = min k xs.length) ∧
    (∀ (series : List (ℕ × ℚ)) (H : ℕ) (d : List ℕ) (v : List ℚ) (r : ℚ),
        forecastLR series H = LROut.ok d v r →
          r = r2Score ((posFilter series).map (fun e => e.2))
                (lrFittedVals ((posFilter series).map (fun e => e.2)))) := by
  refine ⟨fun n => testCountOf_le_three _ n, fun n => testCountOf_le_three _ n,
    ?_, ?_, ?_⟩
  · have hmin : ((8 : ℕ) : ℚ) * min (1 / 5) (3 / ((8 : ℕ) : ℚ)) = 8 / 5 := by
      rw [min_eq_left (by norm_num : (1 : ℚ) / 5 ≤ 3 / ((8 : ℕ) : ℚ))]
      norm_num
    have hc : (⌈(8 : ℚ) / 5⌉ : ℤ) = 2 := by
      have h1 : (8 : ℚ) / 5 ≤ ((2 : ℤ) : ℚ) := by norm_num
      have h2 : ((2 : ℤ) : ℚ) - 1 < (8 : ℚ) / 5 := by norm_num
      exact Int.ceil_eq_iff.mpr ⟨h2, h1⟩
    unfold testCountOf
    rw [hmin, hc]
    rfl
  · intro xs k
    refine ⟨List.take_append_drop _ _, ?_⟩
    simp only [chronoSplit, List.length_drop]
    omega
  · intro series H d v r h
    by_cases hg : (posFilter series).length < 6
    · rw [forecastLR, if_pos hg] at h
      cases h
    · rw [forecastLR, if_neg hg] at h
      cases h
      rfl

/-- C6 witness: the amended claim exercised on a concrete run — the
executing Linear Regression backend on `series8` delivers a forecast
whose reported R² is the in-sample score of its own training series. -/
theorem c6_eval_split_witness :
    ∃ d v r, forecastLR series8 2 = LROut.ok d v r ∧
      r = r2Score ((posFilter series8).map (fun e => e.2))
            (lrFittedVals ((posFilter series8).map (fun e => e.2))) := by
  have h8 : ¬ (posFilter series8).length < 6 := by
    norm_num [posFilter, series8, List.range_succ]
  obtain ⟨d, v, r, h⟩ : ∃ d v r, forecastLR series8 2 = LROut.ok d v r := by
    rw [forecastLR, if_neg h8]
    exact ⟨_, _, _, rfl⟩
  exact ⟨d, v, r, h, c6_eval_split_amended.2.2.2.2 series8 2 d v r h⟩

theorem powSum_zero (n : ℕ) : powSum n 0 = n := by
  unfold powSum
  simp

theorem powSum_one (n : ℕ) : powSum n 1 = (n : ℚ) * ((n : ℚ) - 1) / 2 := by
  unfold powSum
  induction n with
  | zero => simp
  | succ k ih =>
      rw [Finset.sum_range_succ, ih]
      push_cast
      ring

theorem powSum_two (n : ℕ) :
    powSum n 2 = (n : ℚ) * ((n : ℚ) - 1) * (2 * (n : ℚ) - 1) / 6 := by
  unfold powSum
  induction n with
  | zero => simp
  | succ k ih =>
      rw [Finset.sum_range_succ, ih]
      push_cast
      ring

theorem powSum_three (n : ℕ) :
    powSum n 3 = (n : ℚ) ^ 2 * ((n : ℚ) - 1) ^ 2 / 4 := by
  unfold powSum
  induction n with
  | zero => simp
  | succ k ih =>
      rw [Finset.sum_range_succ, ih]
      push_cast
      ring

theorem powSum_four (n : ℕ) :
    powSum n 4 = (n : ℚ) * ((n : ℚ) - 1) * (2 * (n : ℚ) - 1) *
      (3 * (n : ℚ) ^ 2 - 3 * (n : ℚ) - 1) / 30 := by
  unfold powSum
  induction n with
  | zero => simp
  | succ k ih =>
      rw [Finset.sum_range_succ, ih]
      push_cast
      ring

theorem normalDet_closed (n : ℕ) :
    normalDet n =
      (n : ℚ) ^ 3 * ((n : ℚ) ^ 2 - 1) ^ 2 * ((n : ℚ) ^ 2 - 4) / 2160 := by
  unfold normalDet det3x3
  rw [powSum_zero, powSum_one, powSum_two, powSum_three, powSum_four]
  ring

theorem normalDet_ne_zero (n : ℕ) (h : 3 ≤ n) : normalDet n ≠ 0 := by
  rw [normalDet_closed]
  have hx : (3 : ℚ) ≤ (n : ℚ) := by exact_mod_cast h
  have h9 : (9 : ℚ) ≤ (n : ℚ) ^ 2 := by nlinarith
  have h1 : (0 : ℚ) < (n : ℚ) ^ 3 := by positivity
  have h2 : (0 : ℚ) < ((n : ℚ) ^ 2 - 1) ^ 2 := by nlinarith
  have h3 : (0 : ℚ) < (n : ℚ) ^ 2 - 4 := by nlinarith
  have hp : (0 : ℚ) < (n : ℚ) ^ 3 * ((n : ℚ) ^ 2 - 1) ^ 2 * ((n : ℚ) ^ 2 - 4) :=
    mul_pos (mul_pos h1 h2) h3
  exact ne_of_gt (div_pos hp (by norm_num))

theorem residual_moment_expand (y : List ℚ) (β : ℚ × ℚ × ℚ) (k : ℕ) :
    ∑ i in Finset.range y.length,
        (evalPoly2 β (i : ℚ) - y.getD i 0) * (i : ℚ) ^ k =
      β.1 * powSum y.length k + β.2.1 * powSum y.length (k + 1) +
        β.2.2 * powSum y.length (k + 2) - mixSum y k := by
  unfold powSum mixSum evalPoly2
  rw [Finset.mul_sum, Finset.mul_sum, Finset.mul_sum,
    ← Finset.sum_add_distrib, ← Finset.sum_add_distrib,
    ← Finset.sum_sub_distrib]
  apply Finset.sum_congr rfl
  intro i _
  ring

theorem fitPoly2_normal_eq (y : List ℚ) (h : 3 ≤ y.length) (k : ℕ)
    (hk : k ≤ 2) :
    ∑ i in Finset.range y.length,
      (evalPoly2 (fitPoly2 y) (i : ℚ) - y.getD i 0) * (i : ℚ) ^ k = 0 := by
  have hD := normalDet_ne_zero y.length h
  rw [residual_moment_expand]
  interval_cases k <;>
    · unfold fitPoly2 normalDet det3x3 at hD ⊢
      norm_num
      field_simp
      ring

theorem fitPoly2_sse_min (y : List ℚ) (h : 3 ≤ y.length) (γ : ℚ × ℚ × ℚ) :
    sse y (fitPoly2 y) ≤ sse y γ := by
  have h0 := fitPoly2_normal_eq y h 0 (by norm_num)
  have h1 := fitPoly2_normal_eq y h 1 (by norm_num)
  have h2 := fitPoly2_normal_eq y h 2 (by norm_num)
  set β := fitPoly2 y with hβ
  have hcross : ∑ i in Finset.range y.length,
      (evalPoly2 β (i : ℚ) - y.getD i 0) *
        ((γ.1 - β.1) + (γ.2.1 - β.2.1) * (i : ℚ) +
          (γ.2.2 - β.2.2) * (i : ℚ) ^ 2) = 0 := by
    have hexp : ∑ i in Finset.range y.length,
        (evalPoly2 β (i : ℚ) - y.getD i 0) *
          ((γ.1 - β.1) + (γ.2.1 - β.2.1) * (i : ℚ) +
            (γ.2.2 - β.2.2) * (i : ℚ) ^ 2) =
        (γ.1 - β.1) * ∑ i in Finset.range y.length,
            (evalPoly2 β (i : ℚ) - y.getD i 0) * (i : ℚ) ^ 0 +
        (γ.2.1 - β.2.1) * ∑ i in Finset.range y.length,
            (evalPoly2 β (i : ℚ) - y.getD i 0) * (i : ℚ) ^ 1 +
        (γ.2.2 - β.2.2) * ∑ i in Finset.range y.length,
            (evalPoly2 β (i : ℚ) - y.getD i 0) * (i : ℚ) ^ 2 := by
      rw [Finset.mul_sum, Finset.mul_sum, Finset.mul_sum,
        ← Finset.sum_add_distrib, ← Finset.sum_add_distrib]
      apply Finset.sum_congr rfl
      intro i _
      ring
    rw [hexp, h0, h1, h2]
    ring
  have hδ : sse y γ = sse y β + ∑ i in Finset.range y.length,
      ((γ.1 - β.1) + (γ.2.1 - β.2.1) * (i : ℚ) +
        (γ.2.2 - β.2.2) * (i : ℚ) ^ 2) ^ 2 := by
    unfold sse
    have hpt : ∀ i ∈ Finset.range y.length,
        (evalPoly2 γ (i : ℚ) - y.getD i 0) ^ 2 =
          ((evalPoly2 β (i : ℚ) - y.getD i 0) ^ 2 +
            ((γ.1 - β.1) + (γ.2.1 - β.2.1) * (i : ℚ) +
              (γ.2.2 - β.2.2) * (i : ℚ) ^ 2) ^ 2) +
          2 * ((evalPoly2 β (i : ℚ) - y.getD i 0) *
            ((γ.1 - β.1) + (γ.2.1 - β.2.1) * (i : ℚ) +
              (γ.2.2 - β.2.2) * (i : ℚ) ^ 2)) := by
      intro i _
      unfold evalPoly2
      ring
    rw [Finset.sum_congr rfl hpt, Finset.sum_add_distrib,
      Finset.sum_add_distrib, ← Finset.mul_sum, hcross]
    ring
  rw [hδ]
  have hnn : 0 ≤ ∑ i in Finset.range y.length,
      ((γ.1 - β.1) + (γ.2.1 - β.2.1) * (i : ℚ) +
        (γ.2.2 - β.2.2) * (i : ℚ) ^ 2) ^ 2 :=
    Finset.sum_nonneg fun i _ => sq_nonneg _
  linarith

theorem seriesFrom_cons (b : ℕ) (x : ℚ) (t : List ℚ) :
    seriesFrom b (x :: t) = (b, x) :: seriesFrom (b + 1) t := by
  unfold seriesFrom
  rw [List.length_cons, List.range_succ_eq_map, List.map_cons, List.map_map]
  congr 1
  apply List.map_congr_left
  intro i hi
  simp only [Function.comp_apply]
  refine Prod.ext ?_ rfl
  simp
  omega

theorem posFilter_seriesFrom_values (v : List ℚ) :
    ∀ b, (posFilter (seriesFrom b v)).map (fun e => e.2) =
      v.filter (fun x => 0 < x) := by
  induction v with
  | nil => intro b; rfl
  | cons x t ih =>
      intro b
      rw [seriesFrom_cons]
      have iht := ih (b + 1)
      by_cases hx : 0 < x
      · simp only [posFilter, List.filter_cons] at iht ⊢
        simp [hx, iht]
      · simp only [posFilter, List.filter_cons] at iht ⊢
        simp [hx, iht]

theorem lrValues_eq (series : List (ℕ × ℚ)) (H : ℕ) :
    lrValues series H =
      if ((posFilter series).map (fun e => e.2)).length < 6 then []
      else
        (List.range H).map fun i =>
          max 0 (evalPoly2 (fitPoly2 ((posFilter series).map (fun e => e.2)))
            ((((posFilter series).map (fun e => e.2)).length + i : ℕ) : ℚ)) := by
  unfold lrValues
  by_cases hg : (posFilter series).length < 6
  · rw [forecastLR, if_pos hg, if_pos (by simpa using hg)]
  · rw [forecastLR, if_neg hg, if_neg (by simpa using hg)]

theorem lrValues_month_independent (v : List ℚ) (b₁ b₂ H : ℕ) :
    lrValues (seriesFrom b₁ v) H = lrValues (seriesFrom b₂ v) H := by
  rw [lrValues_eq, lrValues_eq, posFilter_seriesFrom_values v b₁,
    posFilter_seriesFrom_values v b₂]

/-- C10 counterexample: two concrete six-month series with the same
values, one starting in January 2024 and one in July 2024, receive
identical three-step forecast values from the executing Linear
Regression backend — impossible if the fitted design included the
claimed cyclical sine/cosine month features.  The executing regression
(the second definition of `forecast_linear_regression`, which shadows
the sine/cosine one at line 2898) uses only the polynomial expansion
`1, x, x²` of the trend index. -/
theorem c10_concrete_months_ignored :
    lrValues (seriesFrom 24289 [1, 2, 3, 4, 5, 6]) 3 =
      lrValues (seriesFrom 24295 [1, 2, 3, 4, 5, 6]) 3 ∧
    (lrValues (seriesFrom 24289 [1, 2, 3, 4, 5, 6]) 3).length = 3 ∧
    calMonthOf 24289 ≠ calMonthOf 24295 := by
  refine ⟨lrValues_month_independent _ _ _ _, ?_, by decide⟩
  rw [lrValues_eq, posFilter_seriesFrom_values]
  have h6 : (([1, 2, 3, 4, 5, 6] : List ℚ).filter (fun x => 0 < x)).length =
      6 := by
    norm_num
  rw [if_neg (by omega)]
  simp

/-- C10 (amended): the executing Linear Regression backend fits
ordinary least squares on the degree-2 polynomial expansion of the
trend index with no cyclical features; it is deterministic and never
fails to fit given at least 3 points: for every series of length ≥ 3
the normal-equation matrix is invertible, the Cramer coefficients
satisfy the three normal equations and minimise the residual sum of
squares, and the forecast values depend only on the value sequence,
never on the calendar months. -/
theorem c10_lr_polynomial_ols :
    ∀ (a b c : ℚ) (t : List ℚ),
      normalDet (a :: b :: c :: t).length ≠ 0 ∧
      (∑ i in Finset.range (a :: b :: c :: t).length,
          (evalPoly2 (fitPoly2 (a :: b :: c :: t)) (i : ℚ) -
            (a :: b :: c :: t).getD i 0) * (i : ℚ) ^ 0 = 0) ∧
      (∑ i in Finset.range (a :: b :: c :: t).length,
          (evalPoly2 (fitPoly2 (a :: b :: c :: t)) (i : ℚ) -
            (a :: b :: c :: t).getD i 0) * (i : ℚ) ^ 1 = 0) ∧
      (∑ i in Finset.range (a :: b :: c :: t).length,
          (evalPoly2 (fitPoly2 (a :: b :: c :: t)) (i : ℚ) -
            (a :: b :: c :: t).getD i 0) * (i : ℚ) ^ 2 = 0) ∧
      (∀ γ, sse (a :: b :: c :: t) (fitPoly2 (a :: b :: c :: t)) ≤
        sse (a :: b :: c :: t) γ) ∧
      (∀ b₁ b₂ H, lrValues (seriesFrom b₁ (a :: b :: c :: t)) H =
        lrValues (seriesFrom b₂ (a :: b :: c :: t)) H) := by
  intro a b c t
  have h3 : 3 ≤ (a :: b :: c :: t).length := by simp
  exact ⟨normalDet_ne_zero _ h3,
    fitPoly2_normal_eq _ h3 0 (by norm_num),
    fitPoly2_normal_eq _ h3 1 (by norm_num),
    fitPoly2_normal_eq _ h3 2 (by norm_num),
    fitPoly2_sse_min _ h3,
    fun b₁ b₂ H => by
      rw [lrValues_eq, lrValues_eq, posFilter_seriesFrom_values _ b₁,
        posFilter_seriesFrom_values _ b₂]⟩

/-- C2 (confirmed): whichever backend produces a forecast, it has
exactly `H` forecast dates and `H` forecast values, and every forecast
value is clamped non-negative — for SARIMA (either path), XGBoost,
Random Forest and the executing Linear Regression, for every horizon
(in particular every `1 ≤ H ≤ 24` the spinbox admits) and every input
that passes the history gates. -/
theorem c2_forecast_length_nonneg :
    (∀ (lib : ArimaLib) (series : List (ℕ × ℚ)) (H fuel : ℕ),
        match sarimaVals (forecastSarima lib series H fuel) with
        | none => True
        | some (d, v) => d.length = H ∧ v.length = H ∧ ∀ q ∈ v, 0 ≤ q) ∧
    (∀ (m : MLModel) (evs : List (ℕ × ℚ)) (H : ℕ),
        match forecastXGB m evs H with
        | MLOut.ok d v _ _ => d.length = H ∧ v.length = H ∧ ∀ q ∈ v, 0 ≤ q
        | _ => True) ∧
    (∀ (m : MLModel) (evs : List (ℕ × ℚ)) (H : ℕ),
        match forecastRF m evs H with
        | MLOut.ok d v _ _ => d.length = H ∧ v.length = H ∧ ∀ q ∈ v, 0 ≤ q
        | _ => True) ∧
    (∀ (series : List (ℕ × ℚ)) (H : ℕ),
        match forecastLR series H with
        | LROut.ok d v _ => d.length = H ∧ v.length = H ∧ ∀ q ∈ v, 0 ≤ q
        | _ => True) := by
  refine ⟨?_, ?_, ?_, ?_⟩
  · intro lib series H fuel
    induction fuel with
    | zero => exact trivial
    | succ n ih =>
        rw [forecastSarima]
        by_cases hg : posCount series < 24
        · rw [if_pos hg]
          exact trivial
        · rw [if_neg hg]
          by_cases hsm : lib.statsmodels
          · rw [if_pos hsm]
            rcases hb : searchBest lib.aic with _ | ⟨ord, av⟩
            · exact ih
            · refine ⟨by simp [fcDates], by simp, ?_⟩
              intro q hq
              simp only [List.mem_map, List.mem_range] at hq
              obtain ⟨i, _, rfl⟩ := hq
              exact le_max_right _ 0
          · rw [if_neg hsm]
            refine ⟨by simp [fcDates], by simp [sarimaSimpleVals], ?_⟩
            intro q hq
            simp only [sarimaSimpleVals, List.mem_map, List.mem_range] at hq
            obtain ⟨i, _, rfl⟩ := hq
            exact le_max_left 0 _
  · intro m evs H
    by_cases h1 : posCount (resampleMS evs) < 12
    · rw [forecastXGB, if_pos h1]
      exact trivial
    · by_cases h2 : (resampleMS evs).length - 3 < 8
      · rw [forecastXGB, if_neg h1, if_pos h2]
        exact trivial
      · rw [forecastXGB, if_neg h1, if_neg h2]
        exact ⟨by simp [fcDates], xgbForecastVals_length m _ H,
          xgbForecastVals_nonneg m _ H⟩
  · intro m evs H
    by_cases h1 : (groupByMonths evs).length < 12
    · rw [forecastRF, if_pos h1]
      exact trivial
    · by_cases h2 : (groupByMonths evs).length - 2 < 8
      · rw [forecastRF, if_neg h1, if_pos h2]
        exact trivial
      · rw [forecastRF, if_neg h1, if_neg h2]
        exact ⟨by simp [rfDates], rfForecastVals_length m _ H,
          rfForecastVals_nonneg m _ H⟩
  · intro series H
    by_cases hg : (posFilter series).length < 6
    · rw [forecastLR, if_pos hg]
      exact trivial
    · rw [forecastLR, if_neg hg]
      refine ⟨by simp [fcDates], by simp, ?_⟩
      intro q hq
      simp only [List.mem_map, List.mem_range] at hq
      obtain ⟨i, _, rfl⟩ := hq
      exact le_max_left 0 _

/-- C2 witness: all four backends exercised on concrete inputs that
pass their history gates — each delivers a forecast with the required
number of dates and values, all values non-negative. -/
theorem c2_forecast_length_nonneg_witness :
    (∃ d v, sarimaVals (forecastSarima arimaOkLib series24 6 1) = some (d, v) ∧
      d.length = 6 ∧ v.length = 6 ∧ ∀ q ∈ v, 0 ≤ q) ∧
    (∃ d v g r, forecastXGB mlConst series24 6 = MLOut.ok d v g r ∧
      d.length = 6 ∧ v.length = 6 ∧ ∀ q ∈ v, 0 ≤ q) ∧
    (∃ d v g r, forecastRF mlConst series24 6 = MLOut.ok d v g r ∧
      d.length = 6 ∧ v.length = 6 ∧ ∀ q ∈ v, 0 ≤ q) ∧
    (∃ d v r, forecastLR series8 2 = LROut.ok d v r ∧
      d.length = 2 ∧ v.length = 2 ∧ ∀ q ∈ v, 0 ≤ q) := by
  have h24 : posCount series24 = 24 := by
    norm_num [posCount, posFilter, series24, List.range_succ]
  have hxgbGate : posCount (resampleMS series24) = 24 := by
    norm_num [posCount, posFilter, resampleMS, series24, minPeriod, maxPeriod,
      sumAt, List.range_succ]
  have hxgbLen : (resampleMS series24).length = 24 := by
    norm_num [resampleMS, series24, minPeriod, maxPeriod, List.range_succ]
  have hrfLen : (groupByMonths series24).length = 24 := by
    norm_num +decide [groupByMonths, series24, minPeriod, maxPeriod, sumAt,
      List.range_succ]
  have hlr : (posFilter series8).length = 8 := by
    norm_num [posFilter, series8, List.range_succ]
  refine ⟨?_, ?_, ?_, ?_⟩
  · have hsearch : searchBest arimaOkLib.aic = some ((0, 0, 0), 1) := by
      norm_num +decide [searchBest, arimaCandidates, searchStep, arimaOkLib,
        List.range_succ, List.flatMap]
    obtain ⟨d, v, he⟩ : ∃ d v,
        sarimaVals (forecastSarima arimaOkLib series24 6 1) = some (d, v) := by
      have hsm : arimaOkLib.statsmodels = true := rfl
      rw [forecastSarima, if_neg (by omega), if_pos hsm, hsearch]
      exact ⟨_, _, rfl⟩
    have hx := c2_forecast_length_nonneg.1 arimaOkLib series24 6 1
    rw [he] at hx
    exact ⟨d, v, he, hx.1, hx.2.1, hx.2.2⟩
  · obtain ⟨d, v, g, r, he⟩ : ∃ d v g r,
        forecastXGB mlConst series24 6 = MLOut.ok d v g r := by
      rw [forecastXGB, if_neg (by omega), if_neg (by omega)]
      exact ⟨_, _, _, _, rfl⟩
    have hx := c2_forecast_length_nonneg.2.1 mlConst series24 6
    rw [he] at hx
    exact ⟨d, v, g, r, he, hx.1, hx.2.1, hx.2.2⟩
  · obtain ⟨d, v, g, r, he⟩ : ∃ d v g r,
        forecastRF mlConst series24 6 = MLOut.ok d v g r := by
      rw [forecastRF, if_neg (by omega), if_neg (by omega)]
      exact ⟨_, _, _, _, rfl⟩
    have hx := c2_forecast_length_nonneg.2.2.1 mlConst series24 6
    rw [he] at hx
    exact ⟨d, v, g, r, he, hx.1, hx.2.1, hx.2.2⟩
  · obtain ⟨d, v, r, he⟩ : ∃ d v r, forecastLR series8 2 = LROut.ok d v r := by
      rw [forecastLR, if_neg (by omega)]
      exact ⟨_, _, _, rfl⟩
    have hx := c2_forecast_length_nonneg.2.2.2 series8 2
    rw [he] at hx
    exact ⟨d, v, r, he, hx.1, hx.2.1, hx.2.2⟩

end MedSys
